import Mathlib

/-!
Verification of the terrain-following bike simulation against its two source
prototypes, `o3.py` and `Deepseek.py`.

Modelling conventions:
* Python floats are embedded as rationals (`ℚ`): every float value is a
  rational, and none of the verified claims depends on rounding of the
  binary64 format.  The one genuinely transcendental piece of the code,
  the sine-based terrain generator of `o3.py` (`math.sin`) and the
  angular dynamics (`math.atan2`, `math.exp`), is embedded over `ℝ`.
* Python list indexing (which accepts negative indices, wrapping once from
  the end, and raises `IndexError` out of range) is embedded by `pyGet?`,
  returning `Option`.
* Python `int()` truncation toward zero on a rational is embedded by `pyInt`.
* Fallible operations (out-of-range indexing, division by zero) are modelled
  by `Option`-returning variants; the total variants used inside the frame
  update take the `Option` result with a default, and the totality theorem
  shows the default is never taken on terrain satisfying the generator's
  invariants.
-/

/-- Python `int()` on a rational: truncation toward zero. -/
def pyInt (q : ℚ) : ℤ := if 0 ≤ q then ⌊q⌋ else ⌈q⌉

/-- Python list indexing `l[i]`: a nonnegative index is used directly, a
negative index wraps once from the end, anything else raises (`none`). -/
def pyGet? {α : Type} (l : List α) (i : ℤ) : Option α :=
  if 0 ≤ i then l[i.toNat]?
  else if 0 ≤ i + l.length then l[(i + l.length).toNat]?
  else none

/-!  ## o3.py: ground query

`Bike.get_ground_y` of `o3.py` (lines 81–94).  The source reads the global
`terrain` list and global `terrain_step`; both are explicit parameters here.
`get_ground_y?` makes every fallible step explicit; `get_ground_y` is the
total function actually used by the frame update, defaulting to `0` exactly
where Python would raise.
-/

/-- o3.py `Bike.get_ground_y`, with Python's failure modes (index error,
division by zero) surfaced as `none`. -/
def get_ground_y? (terrain : List (ℚ × ℚ)) (tstep : ℚ) (x : ℚ) : Option ℚ :=
  if x < 0 then
    (pyGet? terrain 0).map Prod.snd
  else
    (pyGet? terrain (-1)).bind (fun plast =>
      if plast.1 < x then some plast.2
      else
        let index : ℤ := min (pyInt (x / tstep)) ((terrain.length : ℤ) - 2)
        (pyGet? terrain index).bind (fun p1 =>
          (pyGet? terrain (index + 1)).bind (fun p2 =>
            if p2.1 - p1.1 = 0 then none
            else
              let t := (x - p1.1) / (p2.1 - p1.1)
              some (p1.2 * (1 - t) + p2.2 * t))))

/-- Total version of `get_ground_y` used inside the per-frame update. -/
def get_ground_y (terrain : List (ℚ × ℚ)) (tstep : ℚ) (x : ℚ) : ℚ :=
  (get_ground_y? terrain tstep x).getD 0

/-- o3.py `Bike.get_ground_slope`: central difference with `delta = 1.0`,
`atan2(y2 - y1, 2)` = `arctan ((y2 - y1) / 2)` since `2 > 0`. -/
noncomputable def get_ground_slope (terrain : List (ℚ × ℚ)) (tstep : ℚ) (x : ℚ) : ℝ :=
  Real.arctan (((get_ground_y terrain tstep (x + 1) - get_ground_y terrain tstep (x - 1) : ℚ) : ℝ) / 2)

/-!  ## o3.py: bike state and per-frame update -/

/-- Input flags sampled by `pygame.key.get_pressed()` as read by o3.py. -/
structure KeysO3 where
  up : Bool
  down : Bool
  left : Bool
  right : Bool
deriving DecidableEq

/-- o3.py `Bike` state (the fields mutated by `update` / `check_bonus`;
`width`/`height` are render-only constants and omitted).  The rotational
fields live in `ℝ` because the source updates them through `atan2`/`exp`. -/
structure BikeO3 where
  x : ℚ
  y : ℚ
  vx : ℚ
  ax : ℚ
  angle : ℝ
  angular_velocity : ℝ
  score : ℕ
  distance : ℚ

/-- o3.py `Bike.update` (lines 104–157), in source order.  The vertical
snap-correction at the end of the source overwrites the spring update of
`y` whenever the (pre-spring) error exceeds 50, which is expressed by the
final select on `y`. -/
noncomputable def o3update (terrain : List (ℚ × ℚ)) (tstep : ℚ) (dt : ℚ)
    (keys : KeysO3) (b : BikeO3) : BikeO3 :=
  let acceleration : ℚ := if keys.up then 100 else if keys.down then -80 else 0
  let ax := acceleration - (1/2) * b.vx
  let vx0 := b.vx + ax * dt
  let vx := if vx0 < 0 then 0 else vx0
  let x := b.x + vx * dt
  let distance := x
  let ground_y := get_ground_y terrain tstep x
  let ground_slope := get_ground_slope terrain tstep x
  let suspension_offset : ℚ := -5
  let error := (ground_y + suspension_offset) - b.y
  let spring_k : ℚ := 10
  let ay := spring_k * error - 3 * 0
  let y_spring := b.y + ay * dt
  let tilt_input : ℝ := if keys.left then 1 else if keys.right then -1 else 0
  let desired_angle := -ground_slope
  let torque := 5 * tilt_input + 2 * (desired_angle - b.angle)
  let av0 := b.angular_velocity + torque * (dt : ℝ)
  let av := av0 * Real.exp (-(3 * (dt : ℝ)))
  let angle := b.angle + av * (dt : ℝ)
  let y := if 50 < |error| then ground_y + suspension_offset else y_spring
  { x := x, y := y, vx := vx, ax := ax, angle := angle,
    angular_velocity := av, score := b.score, distance := distance }

/-- o3.py `Bike.__init__`: starts at `x = 100` on the ground. -/
noncomputable def o3init (terrain : List (ℚ × ℚ)) (tstep : ℚ) : BikeO3 :=
  { x := 100, y := get_ground_y terrain tstep 100, vx := 0, ax := 0,
    angle := 0, angular_velocity := 0, score := 0, distance := 0 }

/-- The accelerate input of o3.py (`K_UP` held, nothing else). -/
def upKeys : KeysO3 := ⟨true, false, false, false⟩

/-- The idle input of o3.py (no key held). -/
def noKeys : KeysO3 := ⟨false, false, false, false⟩

/-!  ## o3.py: bonus collection

`Bike.check_bonus` (lines 159–167) scores one point per bonus point within
the tolerance box and returns the list of hit points; the main loop
(lines 223–225) then removes each returned point from `bonus_points` with
`list.remove`.  Since the loop appends one entry per hit occurrence and
`remove` deletes the first equal occurrence, the combined effect on the
list is exactly `filter` by the negated hit test.
-/

/-- The o3.py bonus hit test: both the horizontal and the vertical proximity
condition are required. -/
def o3hit (b : BikeO3) (bp : ℚ × ℚ) : Bool :=
  decide (|b.x - bp.1| < 20) && decide (|b.y - bp.2| < 30)

/-- o3.py `Bike.check_bonus`: returns the bike with the score incremented
once per hit, together with the list of hit bonus points. -/
def o3_check_bonus (b : BikeO3) (bonus_points : List (ℚ × ℚ)) :
    BikeO3 × List (ℚ × ℚ) :=
  let collected := bonus_points.filter (o3hit b)
  ({ b with score := b.score + collected.length }, collected)

/-- One full bonus-collection step of the o3.py main loop: `check_bonus`
followed by the removal of every collected point from the active list. -/
def o3_collect_step (st : BikeO3 × List (ℚ × ℚ)) : BikeO3 × List (ℚ × ℚ) :=
  let r := o3_check_bonus st.1 st.2
  (r.1, st.2.filter (fun bp => ! o3hit st.1 bp))

/-- A collection step performed after the bike has moved to position `p`
(the bike position is whatever `Bike.update` made it between two frames;
everything else of the bike state is carried along). -/
def o3_collect_at (p : ℚ × ℚ) (st : BikeO3 × List (ℚ × ℚ)) :
    BikeO3 × List (ℚ × ℚ) :=
  o3_collect_step ({ st.1 with x := p.1, y := p.2 }, st.2)

/-!  ## Deepseek.py: bike state, input, update -/

/-- Input flags as read by Deepseek.py `Game.handle_input`. -/
structure KeysDS where
  up : Bool
  down : Bool
  left : Bool
  right : Bool
deriving DecidableEq

/-- Deepseek.py `Bike` state. -/
structure BikeDS where
  x : ℚ
  y : ℚ
  speed : ℚ
  tilt : ℚ
  balance : ℚ
  score : ℕ
deriving DecidableEq

/-- Deepseek.py `Game.handle_input` (lines 107–116): four independent
`if`s, applied in source order; no clamping of `speed`. -/
def ds_handle_input (k : KeysDS) (b : BikeDS) : BikeDS :=
  let b := if k.up then { b with speed := b.speed + 3/10 } else b
  let b := if k.down then { b with speed := b.speed - 3/10 } else b
  let b := if k.left then { b with tilt := b.tilt - 3/2 } else b
  let b := if k.right then { b with tilt := b.tilt + 3/2 } else b
  b

/-- Deepseek.py `Bike.get_current_segment` scan (lines 72–76): first
adjacent pair bracketing `x`, if any. -/
def ds_find_segment : List (ℚ × ℚ) → ℚ → Option ((ℚ × ℚ) × (ℚ × ℚ))
  | p1 :: p2 :: rest, x =>
    if p1.1 ≤ x ∧ x ≤ p2.1 then some (p1, p2) else ds_find_segment (p2 :: rest) x
  | _, _ => none

/-- Deepseek.py `Bike.get_current_segment`: falls back to the FIRST
segment `(points[0], points[1])` when no bracketing pair exists (defaults
stand in for Python's `IndexError` on lists shorter than two). -/
def ds_get_current_segment (points : List (ℚ × ℚ)) (x : ℚ) : (ℚ × ℚ) × (ℚ × ℚ) :=
  (ds_find_segment points x).getD ((points[0]?).getD (0, 0), (points[1]?).getD (0, 0))

/-- Deepseek.py `Bike.get_terrain_height`: linear interpolation along the
given segment, evaluated at `x` with no range restriction. -/
def ds_get_terrain_height (segment : (ℚ × ℚ) × (ℚ × ℚ)) (x : ℚ) : ℚ :=
  let t := (x - segment.1.1) / (segment.2.1 - segment.1.1)
  segment.1.2 * (1 - t) + segment.2.2 * t

/-- The composite ground-height query of Deepseek.py, as performed inside
`Bike.update`: segment lookup followed by interpolation. -/
def ds_height_at (points : List (ℚ × ℚ)) (x : ℚ) : ℚ :=
  ds_get_terrain_height (ds_get_current_segment points x) x

/-- Deepseek.py `Bike.update` (lines 53–70).  The `dt` argument of the
source is never used.  The gravity increment of `y` is immediately
overwritten by the terrain snap `y = terrain_height - 20`. -/
def ds_update (points : List (ℚ × ℚ)) (_dt : ℚ) (b : BikeDS) : BikeDS :=
  let speed := b.speed * (96/100)
  let _ygrav := b.y + 1/2
  let x := b.x + speed
  let seg := ds_get_current_segment points x
  let h := ds_get_terrain_height seg x
  let y := h - 20
  let balance := seg.2.2 - seg.1.2
  let tilt := b.tilt + (-balance * (1/10) - b.tilt) * (1/10)
  { b with x := x, y := y, speed := speed, balance := balance, tilt := tilt }

/-!  ## Deepseek.py: bonuses -/

/-- Deepseek.py `Bonus`. -/
structure Bonus where
  x : ℚ
  y : ℚ
  collected : Bool
deriving DecidableEq

/-- The Deepseek.py bonus hit test of `Game.check_bonus_collection`:
the bonus must be uncollected and horizontally within 30 of the bike.
There is no vertical condition in the source. -/
def dsBonusHit (b : BikeDS) (bo : Bonus) : Bool :=
  !bo.collected && decide (|b.x - bo.x| < 30)

/-- Deepseek.py `Game.check_bonus_collection` (lines 153–157): every hit
bonus is flagged collected and awards 10 points.  The loop body touches
each bonus independently and only accumulates into `score`, so it is the
`map` / `countP` below. -/
def ds_check_bonus_collection (b : BikeDS) (bs : List Bonus) : BikeDS × List Bonus :=
  ({ b with score := b.score + 10 * bs.countP (dsBonusHit b) },
   bs.map (fun bo => if dsBonusHit b bo then { bo with collected := true } else bo))

/-- A Deepseek collection step performed after the bike has moved to
horizontal position `x` (its vertical position is irrelevant to the test). -/
def ds_collect_at (x : ℚ) (st : BikeDS × List Bonus) : BikeDS × List Bonus :=
  ds_check_bonus_collection { st.1 with x := x } st.2

/-!  ## Deepseek.py: terrain generation (random walk with clamp)

The random source `random.randint(-50, 50)` is modelled as an explicit
stream of values `noise : ℕ → ℚ`, consumed in order.
-/

/-- The clamp `y = max(200, min(HEIGHT - 100, y))` of Deepseek.py, with
`HEIGHT = 600`. -/
def dsClamp (y : ℚ) : ℚ := max 200 (min (600 - 100) y)

/-- The loop of Deepseek.py `Terrain.generate_initial_terrain`: `n`
remaining iterations, next noise index `i`, current `current_x` and `y`.
Each iteration appends the current sample and then perturbs and clamps `y`. -/
def dsInitAux (noise : ℕ → ℚ) : ℕ → ℕ → ℚ → ℚ → List (ℚ × ℚ)
  | 0, _, _, _ => []
  | n + 1, i, cx, y => (cx, y) :: dsInitAux noise n (i + 1) (cx + 50) (dsClamp (y + noise i))

/-- Deepseek.py `Terrain.generate_initial_terrain` (lines 29–35):
`WIDTH // TERRAIN_SEGMENT_LENGTH + 2 = 1200 / 50 + 2 = 26` samples starting
at `(0, HEIGHT // 2) = (0, 300)`. -/
def ds_generate_initial_terrain (noise : ℕ → ℚ) : List (ℚ × ℚ) :=
  dsInitAux noise 26 0 0 300

/-- Deepseek.py `Terrain.update_terrain` (lines 37–42).  The `while` loop is
modelled with an explicit iteration budget `fuel`; every terminating run of
the source loop is a run of this model for sufficiently large `fuel`, and
the clamp invariant below holds for every budget.  `points[-1]` on an empty
list would raise in Python; the default `(0, 0)` stands in for that case. -/
def ds_update_terrain_aux (noise : ℕ → ℚ) (bike_x : ℚ) :
    ℕ → ℕ → List (ℚ × ℚ) → List (ℚ × ℚ)
  | 0, _, pts => pts
  | n + 1, i, pts =>
    let last := pts.getLastD (0, 0)
    if last.1 < bike_x + 1200 then
      ds_update_terrain_aux noise bike_x n (i + 1)
        (pts ++ [(last.1 + 50, dsClamp (last.2 + noise i))])
    else pts

/-!  ## o3.py: terrain generation (sine plus noise, no clamp)

`generate_terrain` (lines 28–42) walks `x` from `0` in steps of `step`
while `x < length` and computes
`y = HEIGHT - (80 * sin(0.005 * x) + 80 + uniform(-20, 20))`
with no clamping of any kind.  The `i`-th appended sample sits at
`x = i * step`, and for `step > 0` the loop runs `⌈length / step⌉` times
(`0` times when `length ≤ 0`); the uniform noise is an explicit stream. -/
noncomputable def generate_terrain (noise : ℕ → ℝ) (length step : ℝ) : List (ℝ × ℝ) :=
  (List.range (max 0 ⌈length / step⌉).toNat).map (fun (i : ℕ) =>
    ((i : ℝ) * step, 600 - (80 * Real.sin (0.005 * ((i : ℝ) * step)) + 80 + noise i)))

/-!  ## Helper lemmas -/

/-- Core of the snap-correction bound: one vertical sub-step with ground
height `g`, previous height `y0`, written exactly as it appears after
unfolding `o3update`. -/
lemma snap_core (g y0 dt : ℚ) (h1 : 0 < dt) (h2 : dt ≤ 1/5) :
    |g + -5 - (if 50 < |g + -5 - y0| then g + -5 else y0 + (10 * (g + -5 - y0) - 3 * 0) * dt)| ≤ 50 := by
  have h10 : |1 - 10 * dt| ≤ 1 := abs_le.mpr ⟨by linarith, by linarith⟩
  split_ifs with h
  · simp
  · have he : |g + -5 - y0| ≤ 50 := le_of_not_lt h
    have key : g + -5 - (y0 + (10 * (g + -5 - y0) - 3 * 0) * dt)
        = (g + -5 - y0) * (1 - 10 * dt) := by ring
    rw [key, abs_mul]
    calc |g + -5 - y0| * |1 - 10 * dt| ≤ 50 * 1 :=
          mul_le_mul he h10 (abs_nonneg _) (by norm_num)
      _ = 50 := by norm_num

/-!  ## C1: snap-correction bound -/

/-- C1 (amended): after a single `Bike.update` of o3.py with `0 < dt ≤ 1/5`,
the vertical tracking error `|target_y - y|` with
`target_y = ground_y(x) + suspension_offset` is at most the threshold 50.
The restriction `dt ≤ 1/5` is forced: the snap test uses the error computed
BEFORE the spring moves `y`, so for `dt > 1/5` the spring overshoots past
the threshold (see the counterexample). -/
theorem snap_bound_small_dt (terrain : List (ℚ × ℚ)) (tstep dt : ℚ) (keys : KeysO3)
    (b : BikeO3) (h1 : 0 < dt) (h2 : dt ≤ 1/5) :
    |get_ground_y terrain tstep (o3update terrain tstep dt keys b).x + -5
      - (o3update terrain tstep dt keys b).y| ≤ 50 := by
  simp only [o3update]
  exact snap_core _ b.y dt h1 h2

/-- Witness for `snap_bound_small_dt` at `dt = 1/60` on concrete flat
terrain. -/
theorem snap_bound_small_dt_witness :
    (0 < (1/60 : ℚ) ∧ (1/60 : ℚ) ≤ 1/5) ∧
    |get_ground_y [(0,300),(10,300)] 10
        (o3update [(0,300),(10,300)] 10 (1/60) noKeys ⟨5, 245, 0, 0, 0, 0, 0, 5⟩).x + -5
      - (o3update [(0,300),(10,300)] 10 (1/60) noKeys ⟨5, 245, 0, 0, 0, 0, 0, 5⟩).y| ≤ 50 :=
  ⟨⟨by norm_num, by norm_num⟩,
   snap_bound_small_dt [(0,300),(10,300)] 10 (1/60) noKeys ⟨5, 245, 0, 0, 0, 0, 0, 5⟩
     (by norm_num) (by norm_num)⟩

/-- C1 counterexample: with `dt = 1` (a positive dt), flat terrain at
height 300 and a bike resting at `y = 245` (error exactly 50, so the snap
does not fire), one `update` moves `y` to 745 and the tracking error after
the step is 450, far beyond the threshold 50.  So the claim is false for
arbitrary positive `dt`. -/
theorem snap_bound_counterexample :
    ¬ |get_ground_y [(0,300),(10,300)] 10
          (o3update [(0,300),(10,300)] 10 1 noKeys ⟨5, 245, 0, 0, 0, 0, 0, 5⟩).x + -5
        - (o3update [(0,300),(10,300)] 10 1 noKeys ⟨5, 245, 0, 0, 0, 0, 0, 5⟩).y| ≤ 50 := by
  have hx : (o3update [(0,300),(10,300)] 10 1 noKeys ⟨5, 245, 0, 0, 0, 0, 0, 5⟩).x = 5 := by
    norm_num [o3update, get_ground_y, get_ground_y?, pyGet?, pyInt, noKeys]
  have hy : (o3update [(0,300),(10,300)] 10 1 noKeys ⟨5, 245, 0, 0, 0, 0, 0, 5⟩).y = 745 := by
    norm_num [o3update, get_ground_y, get_ground_y?, pyGet?, pyInt, noKeys]
  rw [hx, hy]
  norm_num [get_ground_y, get_ground_y?, pyGet?, pyInt]

/-!  ## C10, C2, C7: horizontal dynamics of o3.py -/

/-- The clamp in `Bike.update` leaves the horizontal velocity nonnegative,
whatever the previous state, input and `dt`. -/
lemma o3update_vx_nonneg (terrain : List (ℚ × ℚ)) (tstep dt : ℚ) (keys : KeysO3)
    (b : BikeO3) : 0 ≤ (o3update terrain tstep dt keys b).vx := by
  simp only [o3update]
  split_ifs <;> first | exact le_refl 0 | linarith

/-- The position update of `Bike.update` is `x += vx * dt` with the
already-clamped `vx`. -/
lemma o3update_x_eq (terrain : List (ℚ × ℚ)) (tstep dt : ℚ) (keys : KeysO3)
    (b : BikeO3) :
    (o3update terrain tstep dt keys b).x = b.x + (o3update terrain tstep dt keys b).vx * dt := by
  simp only [o3update]

/-- C10: across one `Bike.update` of o3.py with any input and `0 < dt`,
the horizontal position never decreases (because `vx` is clamped to be
nonnegative before `x += vx * dt`), and `distance` is assigned the new `x`,
so distance is non-decreasing across frames as well. -/
theorem o3_position_monotone (terrain : List (ℚ × ℚ)) (tstep dt : ℚ) (keys : KeysO3)
    (b : BikeO3) (h : 0 < dt) :
    b.x ≤ (o3update terrain tstep dt keys b).x ∧
    (o3update terrain tstep dt keys b).distance = (o3update terrain tstep dt keys b).x := by
  refine ⟨?_, by simp only [o3update]⟩
  rw [o3update_x_eq]
  have := mul_nonneg (o3update_vx_nonneg terrain tstep dt keys b) h.le
  linarith

/-- Witness for `o3_position_monotone` on concrete terrain with `dt = 1/60`. -/
theorem o3_position_monotone_witness :
    0 < (1/60 : ℚ) ∧
    ((⟨5, 245, 0, 0, 0, 0, 0, 5⟩ : BikeO3).x
        ≤ (o3update [(0,300),(10,300)] 10 (1/60) upKeys ⟨5, 245, 0, 0, 0, 0, 0, 5⟩).x ∧
      (o3update [(0,300),(10,300)] 10 (1/60) upKeys ⟨5, 245, 0, 0, 0, 0, 0, 5⟩).distance
        = (o3update [(0,300),(10,300)] 10 (1/60) upKeys ⟨5, 245, 0, 0, 0, 0, 0, 5⟩).x) :=
  ⟨by norm_num,
   o3_position_monotone [(0,300),(10,300)] 10 (1/60) upKeys ⟨5, 245, 0, 0, 0, 0, 0, 5⟩ (by norm_num)⟩

/-- The whole-session run of o3.py: fold `Bike.update` over a list of
per-frame inputs `(keys, dt)`, starting from the freshly constructed bike. -/
noncomputable def o3_run (terrain : List (ℚ × ℚ)) (tstep : ℚ)
    (inputs : List (KeysO3 × ℚ)) : BikeO3 :=
  inputs.foldl (fun b m => o3update terrain tstep m.2 m.1 b) (o3init terrain tstep)

/-- Auxiliary: the nonnegativity of `vx` is preserved by any fold of
`Bike.update` steps. -/
lemma o3_foldl_vx_nonneg (terrain : List (ℚ × ℚ)) (tstep : ℚ) :
    ∀ (inputs : List (KeysO3 × ℚ)) (b : BikeO3), 0 ≤ b.vx →
      0 ≤ (inputs.foldl (fun b m => o3update terrain tstep m.2 m.1 b) b).vx := by
  intro inputs
  induction inputs with
  | nil => intro b hb; exact hb
  | cons m rest ih =>
    intro b _
    exact ih (o3update terrain tstep m.2 m.1 b)
      (o3update_vx_nonneg terrain tstep m.2 m.1 b)

/-- C2 (amended): in the o3.py prototype, after any finite sequence of
`Bike.update` calls with arbitrary input flags and frame times, starting
from the initial bike state, `vx >= 0` holds.  (The Deepseek.py prototype
does not clamp its speed; see the counterexample.) -/
theorem o3_vx_nonneg_all_inputs (terrain : List (ℚ × ℚ)) (tstep : ℚ)
    (inputs : List (KeysO3 × ℚ)) : 0 ≤ (o3_run terrain tstep inputs).vx := by
  exact o3_foldl_vx_nonneg terrain tstep inputs (o3init terrain tstep) (le_refl 0)

/-- C2 counterexample: in Deepseek.py, one frame (input handling followed by
`Bike.update`) with the brake key held, starting from the initial bike
`Bike(100, 300)` with `speed = 0`, leaves `speed = -0.3 * 0.96 = -0.288 < 0`:
the non-negativity claim fails on the Deepseek prototype, which never clamps. -/
theorem vx_nonneg_counterexample :
    ¬ (0 ≤ (ds_update [(0,300),(50,300),(100,300),(150,300)] (1/60)
        (ds_handle_input ⟨false, true, false, false⟩ ⟨100, 300, 0, 0, 0, 0⟩)).speed) := by
  norm_num [ds_update, ds_handle_input, ds_get_current_segment, ds_find_segment,
    ds_get_terrain_height]

/-- The accelerate-held scenario of the spec: `Bike.update` iterated from
the initial state with `K_UP` held and `dt = 1/60`. -/
noncomputable def o3_accel_run (terrain : List (ℚ × ℚ)) (tstep : ℚ) (n : ℕ) : BikeO3 :=
  (fun b => o3update terrain tstep (1/60) upKeys b)^[n] (o3init terrain tstep)

lemma o3_accel_run_succ (terrain : List (ℚ × ℚ)) (tstep : ℚ) (n : ℕ) :
    o3_accel_run terrain tstep (n + 1)
      = o3update terrain tstep (1/60) upKeys (o3_accel_run terrain tstep n) := by
  simp only [o3_accel_run, Function.iterate_succ_apply']

/-- With accelerate held, `dt = 1/60`, `A = 100` and drag `0.5`, the
velocity recurrence of `Bike.update` is affine: `vx' = (119/120) vx + 5/3`
(the clamp never fires for `vx ≥ 0`). -/
lemma o3update_vx_up (terrain : List (ℚ × ℚ)) (tstep : ℚ) (b : BikeO3)
    (h : 0 ≤ b.vx) :
    (o3update terrain tstep (1/60) upKeys b).vx = (119/120) * b.vx + 5/3 := by
  simp [o3update, upKeys]
  rw [if_neg (by linarith)]
  ring

/-- Invariant of the accelerate-held run: `0 ≤ vx < 200` at every frame. -/
lemma o3_accel_vx_bounds (terrain : List (ℚ × ℚ)) (tstep : ℚ) :
    ∀ n : ℕ, 0 ≤ (o3_accel_run terrain tstep n).vx ∧ (o3_accel_run terrain tstep n).vx < 200 := by
  intro n
  induction n with
  | zero => simp [o3_accel_run, o3init]
  | succ n ih =>
    rw [o3_accel_run_succ, o3update_vx_up terrain tstep _ ih.1]
    constructor
    · linarith [ih.1]
    · linarith [ih.2]

/-- C7: starting from `vx = 0` with accelerate held, `dt = 1/60`,
`A_accel = 100` and drag coefficient `0.5`, the per-frame `vx` sequence of
o3.py is strictly increasing and never exceeds the analytic fixed point
`A_accel / drag = 200`. -/
theorem o3_terminal_velocity (terrain : List (ℚ × ℚ)) (tstep : ℚ) (n : ℕ) :
    (o3_accel_run terrain tstep n).vx < (o3_accel_run terrain tstep (n + 1)).vx ∧
    (o3_accel_run terrain tstep n).vx ≤ 200 := by
  obtain ⟨h0, h200⟩ := o3_accel_vx_bounds terrain tstep n
  constructor
  · rw [o3_accel_run_succ, o3update_vx_up terrain tstep _ h0]
    linarith
  · exact h200.le

/-!  ## C9: totality of the o3.py ground query -/

lemma pyGet?_nonneg {α : Type} (l : List α) (i : ℤ) (h : 0 ≤ i) :
    pyGet? l i = l[i.toNat]? := by
  simp [pyGet?, h]

lemma pyGet?_neg_one {α : Type} (l : List α) (h : l ≠ []) :
    pyGet? l (-1) = l[l.length - 1]? := by
  have hl : 0 < l.length := List.length_pos.mpr h
  have h1 : ¬ (0 : ℤ) ≤ -1 := by norm_num
  have h2 : (0 : ℤ) ≤ -1 + l.length := by omega
  have h3 : ((-1) + (l.length : ℤ)).toNat = l.length - 1 := by omega
  simp only [pyGet?, if_neg h1, if_pos h2, h3]

/-- On terrain with samples at `x = i * tstep`, the first coordinate of the
`i`-th sample. -/
lemma spacing_fst (terrain : List (ℚ × ℚ)) (tstep : ℚ)
    (hsp : terrain.map Prod.fst
      = (List.range terrain.length).map (fun i : ℕ => (i : ℚ) * tstep))
    (i : ℕ) (p : ℚ × ℚ) (hp : terrain[i]? = some p) : p.1 = (i : ℚ) * tstep := by
  have hi : i < terrain.length := by
    by_contra hc
    rw [List.getElem?_eq_none (by omega)] at hp
    exact Option.noConfusion hp
  have h2 := congrArg (fun l => l[i]?) hsp
  simp only [List.getElem?_map, List.getElem?_range hi, hp, Option.map_some'] at h2
  simpa using h2

/-- C9: on any terrain profile with at least two samples and constant
positive spacing `tstep` (the shape the o3.py generator produces), the
ground query never faults: the boundary tests and the index clamp keep
every list access in range and the interpolation divisor is nonzero, so
the checked query returns `some` of the total query's value, for every
query position `x`. -/
theorem get_ground_y_total (terrain : List (ℚ × ℚ)) (tstep x : ℚ)
    (hlen : 2 ≤ terrain.length) (hstep : 0 < tstep)
    (hsp : terrain.map Prod.fst
      = (List.range terrain.length).map (fun i : ℕ => (i : ℚ) * tstep)) :
    get_ground_y? terrain tstep x = some (get_ground_y terrain tstep x) := by
  suffices h : ∃ y, get_ground_y? terrain tstep x = some y by
    obtain ⟨y, hy⟩ := h
    rw [get_ground_y, hy]
    rfl
  have hlen0 : 0 < terrain.length := by omega
  have hne : terrain ≠ [] := List.length_pos.mp hlen0
  simp only [get_ground_y?]
  by_cases hx : x < 0
  · rw [if_pos hx, pyGet?_nonneg terrain 0 le_rfl]
    rw [show ((0:ℤ).toNat) = 0 from rfl, List.getElem?_eq_getElem hlen0]
    exact ⟨_, rfl⟩
  · rw [if_neg hx]
    push_neg at hx
    obtain ⟨pl, hpl⟩ : ∃ p, pyGet? terrain (-1) = some p := by
      rw [pyGet?_neg_one terrain hne]
      exact ⟨_, List.getElem?_eq_getElem (by omega)⟩
    rw [hpl, Option.some_bind]
    by_cases hplx : pl.1 < x
    · exact ⟨pl.2, by rw [if_pos hplx]⟩
    · rw [if_neg hplx]
      have hq : 0 ≤ x / tstep := div_nonneg hx hstep.le
      have hpyInt : pyInt (x / tstep) = ⌊x / tstep⌋ := by simp [pyInt, hq]
      have hfloor : 0 ≤ ⌊x / tstep⌋ := Int.floor_nonneg.mpr hq
      have hI0 : 0 ≤ min (pyInt (x / tstep)) ((terrain.length : ℤ) - 2) := by
        rw [hpyInt]
        exact le_min hfloor (by omega)
      have hI2 : min (pyInt (x / tstep)) ((terrain.length : ℤ) - 2)
          ≤ (terrain.length : ℤ) - 2 := min_le_right _ _
      have hIlt : (min (pyInt (x / tstep)) ((terrain.length : ℤ) - 2)).toNat
          < terrain.length := by omega
      have hI1lt : (min (pyInt (x / tstep)) ((terrain.length : ℤ) - 2) + 1).toNat
          < terrain.length := by omega
      obtain ⟨p1, hp1⟩ : ∃ p, pyGet? terrain
          (min (pyInt (x / tstep)) ((terrain.length : ℤ) - 2)) = some p := by
        rw [pyGet?_nonneg _ _ hI0]
        exact ⟨_, List.getElem?_eq_getElem hIlt⟩
      obtain ⟨p2, hp2⟩ : ∃ p, pyGet? terrain
          (min (pyInt (x / tstep)) ((terrain.length : ℤ) - 2) + 1) = some p := by
        rw [pyGet?_nonneg _ _ (by omega)]
        exact ⟨_, List.getElem?_eq_getElem hI1lt⟩
      rw [hp1, Option.some_bind, hp2, Option.some_bind]
      have hfst1 : p1.1 = ((min (pyInt (x / tstep)) ((terrain.length : ℤ) - 2)).toNat : ℚ)
          * tstep := by
        apply spacing_fst terrain tstep hsp _ p1
        rw [pyGet?_nonneg _ _ hI0] at hp1
        exact hp1
      have hfst2 : p2.1 = (((min (pyInt (x / tstep)) ((terrain.length : ℤ) - 2)).toNat + 1 : ℕ) : ℚ)
          * tstep := by
        have ht : (min (pyInt (x / tstep)) ((terrain.length : ℤ) - 2) + 1).toNat
            = (min (pyInt (x / tstep)) ((terrain.length : ℤ) - 2)).toNat + 1 := by omega
        apply spacing_fst terrain tstep hsp _ p2
        rw [pyGet?_nonneg _ _ (by omega), ht] at hp2
        exact hp2
      have hdiv : ¬ (p2.1 - p1.1 = 0) := by
        rw [hfst1, hfst2]
        push_cast
        intro hcon
        apply hstep.ne
        linarith
      rw [if_neg hdiv]
      exact ⟨_, rfl⟩

/-- Witness for `get_ground_y_total` on a concrete two-sample profile. -/
theorem get_ground_y_total_witness :
    (2 ≤ ([((0:ℚ),(300:ℚ)), (10, 310)]).length ∧ (0:ℚ) < 10 ∧
      ([((0:ℚ),(300:ℚ)), (10, 310)]).map Prod.fst
        = (List.range ([((0:ℚ),(300:ℚ)), (10, 310)]).length).map (fun i : ℕ => (i : ℚ) * 10)) ∧
    get_ground_y? [((0:ℚ),(300:ℚ)), (10, 310)] 10 7
      = some (get_ground_y [((0:ℚ),(300:ℚ)), (10, 310)] 10 7) :=
  ⟨⟨by norm_num, by norm_num, by simp [List.range_succ]⟩,
   get_ground_y_total [((0:ℚ),(300:ℚ)), (10, 310)] 10 7 (by norm_num) (by norm_num)
     (by simp [List.range_succ])⟩

/-!  ## C4: extrapolation beyond the terrain ends -/

/-- C4 (amended): o3.py's `get_ground_y` extrapolates flat at both ends:
for `x` below the first sample's x-coordinate (which is `0` for generated
terrain, matching the guard `x < 0` in the source) it returns the first
sample's height, and for `x` beyond the last sample's x-coordinate it
returns the last sample's height.  (Deepseek.py instead falls back to the
FIRST segment and extrapolates linearly along it; see the counterexample.) -/
theorem o3_flat_extrapolation (terrain : List (ℚ × ℚ)) (tstep : ℚ)
    (hne : terrain ≠ []) (hhead : (terrain.headI).1 = 0)
    (hlast : 0 ≤ (terrain.getLastD (0, 0)).1) :
    (∀ x : ℚ, x < (terrain.headI).1 →
        get_ground_y terrain tstep x = (terrain.headI).2) ∧
    (∀ x : ℚ, (terrain.getLastD (0, 0)).1 < x →
        get_ground_y terrain tstep x = (terrain.getLastD (0, 0)).2) := by
  have hlen0 : 0 < terrain.length := List.length_pos.mpr hne
  have hgl : pyGet? terrain (-1) = some (terrain.getLastD (0, 0)) := by
    rw [pyGet?_neg_one terrain hne, ← List.getLast?_eq_getElem?, List.getLastD_eq_getLast?]
    cases hg : terrain.getLast? with
    | none => exact absurd (List.getLast?_eq_none_iff.mp hg) hne
    | some p => rfl
  constructor
  · intro x hx
    rw [hhead] at hx
    obtain ⟨p, rest, rfl⟩ : ∃ p rest, terrain = p :: rest := by
      cases terrain with
      | nil => exact absurd rfl hne
      | cons p rest => exact ⟨p, rest, rfl⟩
    simp only [get_ground_y, get_ground_y?, if_pos hx, pyGet?_nonneg _ 0 le_rfl]
    simp
  · intro x hx
    have hx0 : ¬ (x < 0) := by push_neg; linarith
    simp only [get_ground_y, get_ground_y?, if_neg hx0, hgl, Option.some_bind]
    rw [if_pos hx]
    rfl

/-- Witness for `o3_flat_extrapolation` on a concrete two-sample profile,
instantiated on both sides of the terrain. -/
theorem o3_flat_extrapolation_witness :
    (([((0:ℚ),(300:ℚ)), (10, 310)] : List (ℚ × ℚ)) ≠ [] ∧
      (([((0:ℚ),(300:ℚ)), (10, 310)]).headI).1 = 0 ∧
      0 ≤ (([((0:ℚ),(300:ℚ)), (10, 310)]).getLastD (0, 0)).1) ∧
    get_ground_y [((0:ℚ),(300:ℚ)), (10, 310)] 10 (-3)
      = (([((0:ℚ),(300:ℚ)), (10, 310)]).headI).2 ∧
    get_ground_y [((0:ℚ),(300:ℚ)), (10, 310)] 10 37
      = (([((0:ℚ),(300:ℚ)), (10, 310)]).getLastD (0, 0)).2 :=
  ⟨⟨by simp, by norm_num, by norm_num⟩,
   (o3_flat_extrapolation [((0:ℚ),(300:ℚ)), (10, 310)] 10 (by simp) (by norm_num)
      (by norm_num)).1 (-3) (by norm_num),
   (o3_flat_extrapolation [((0:ℚ),(300:ℚ)), (10, 310)] 10 (by simp) (by norm_num)
      (by norm_num)).2 37 (by norm_num)⟩

/-- C4 counterexample: on the Deepseek.py profile `[(0,300), (50,400)]`,
a query at `x = 100` (beyond the last sample, whose height is 400) falls
back to the first segment and extrapolates linearly to 500, so the flat
extrapolation law fails on the Deepseek prototype. -/
theorem flat_extrapolation_counterexample :
    ds_height_at [(0, 300), (50, 400)] 100 = 500 ∧
    ¬ ds_height_at [(0, 300), (50, 400)] 100 = 400 := by
  constructor <;>
    norm_num [ds_height_at, ds_get_current_segment, ds_find_segment, ds_get_terrain_height]

/-!  ## C3, C8: terrain generation -/

lemma dsClamp_bounds (y : ℚ) : 200 ≤ dsClamp y ∧ dsClamp y ≤ 500 := by
  constructor
  · exact le_max_left _ _
  · exact max_le (by norm_num) ((min_le_left _ _).trans (by norm_num))

/-- Every sample appended by the initial-terrain loop of Deepseek.py stays
in the clamp band, provided the incoming height does. -/
lemma dsInitAux_mem (noise : ℕ → ℚ) :
    ∀ (n i : ℕ) (cx y : ℚ), 200 ≤ y → y ≤ 500 →
      ∀ p ∈ dsInitAux noise n i cx y, 200 ≤ p.2 ∧ p.2 ≤ 500 := by
  intro n
  induction n with
  | zero => intro i cx y _ _ p hp; simp [dsInitAux] at hp
  | succ n ih =>
    intro i cx y h1 h2 p hp
    rw [dsInitAux] at hp
    rcases List.mem_cons.mp hp with h | h
    · rw [h]
      exact ⟨h1, h2⟩
    · exact ih (i + 1) (cx + 50) (dsClamp (y + noise i))
        (dsClamp_bounds _).1 (dsClamp_bounds _).2 p h

/-- Every sample appended by the extension loop of Deepseek.py stays in the
clamp band, provided the incoming samples do. -/
lemma ds_update_terrain_aux_mem (noise : ℕ → ℚ) (bike_x : ℚ) :
    ∀ (fuel i : ℕ) (pts : List (ℚ × ℚ)),
      (∀ p ∈ pts, 200 ≤ p.2 ∧ p.2 ≤ 500) →
      ∀ p ∈ ds_update_terrain_aux noise bike_x fuel i pts, 200 ≤ p.2 ∧ p.2 ≤ 500 := by
  intro fuel
  induction fuel with
  | zero => intro i pts hpts p hp; rw [ds_update_terrain_aux] at hp; exact hpts p hp
  | succ n ih =>
    intro i pts hpts p hp
    simp only [ds_update_terrain_aux] at hp
    by_cases hc : (pts.getLastD (0, 0)).1 < bike_x + 1200
    · rw [if_pos hc] at hp
      refine ih (i + 1) _ ?_ p hp
      intro q hq
      rcases List.mem_append.mp hq with h | h
      · exact hpts q h
      · rw [List.mem_singleton.mp h]
        exact ⟨(dsClamp_bounds _).1, (dsClamp_bounds _).2⟩
    · rw [if_neg hc] at hp
      exact hpts p hp

/-- C3 (amended): every sample produced by the Deepseek.py random-walk
generator — the initial seeding and any number of incremental extension
steps, under an arbitrary random stream — lies in the configured clamp band
`[200, HEIGHT - 100] = [200, 500]`, the clamp being applied after every
perturbation.  (The o3.py sine-plus-noise generator applies no clamp at
all; see the counterexample.) -/
theorem ds_terrain_clamp (noiseI noiseE : ℕ → ℚ) (fuel i : ℕ) (bike_x : ℚ) (p : ℚ × ℚ)
    (hp : p ∈ ds_update_terrain_aux noiseE bike_x fuel i (ds_generate_initial_terrain noiseI)) :
    200 ≤ p.2 ∧ p.2 ≤ 500 := by
  apply ds_update_terrain_aux_mem noiseE bike_x fuel i _ _ p hp
  intro q hq
  exact dsInitAux_mem noiseI 26 0 0 300 (by norm_num) (by norm_num) q hq

/-- Witness for `ds_terrain_clamp`: the first sample of a freshly seeded
terrain (zero noise, no extension steps). -/
theorem ds_terrain_clamp_witness :
    ((0:ℚ), (300:ℚ)) ∈ ds_update_terrain_aux (fun _ => 0) 0 0 0
      (ds_generate_initial_terrain (fun _ => 0)) ∧
    (200 ≤ (((0:ℚ), (300:ℚ)) : ℚ × ℚ).2 ∧ (((0:ℚ), (300:ℚ)) : ℚ × ℚ).2 ≤ 500) := by
  have hm : ((0:ℚ), (300:ℚ)) ∈ ds_update_terrain_aux (fun _ => 0) 0 0 0
      (ds_generate_initial_terrain (fun _ => 0)) := by
    show ((0:ℚ), (300:ℚ)) ∈ ds_generate_initial_terrain (fun _ => 0)
    rw [ds_generate_initial_terrain, dsInitAux]
    exact List.mem_cons_self _ _
  exact ⟨hm, ds_terrain_clamp (fun _ => 0) (fun _ => 0) 0 0 0 ((0:ℚ), (300:ℚ)) hm⟩

/-- The first sample of the o3.py generator: at `x = 0` the sine vanishes,
leaving `600 - (80 + noise 0) = 520 - noise 0` — the random jitter enters
the first sample and no clamp is applied. -/
lemma generate_terrain_head (noise : ℕ → ℝ) :
    (generate_terrain noise 5000 10)[0]? = some (0, 520 - noise 0) := by
  have h500 : (max 0 ⌈(5000:ℝ) / 10⌉).toNat = 500 := by
    rw [show ⌈(5000:ℝ) / 10⌉ = (500:ℤ) from by norm_num]
    decide
  rw [generate_terrain, h500, List.getElem?_map,
    List.getElem?_range (by norm_num : 0 < 500)]
  simp [Real.sin_zero]
  ring

/-- C3 counterexample: with the zero noise stream (an admissible draw of
`uniform(-20, 20)`), the very first sample of the o3.py generator has
height 520, outside the only configured clamp band `[200, 500]` of the
repository — the sine-plus-noise policy clamps nothing. -/
theorem terrain_clamp_counterexample :
    (generate_terrain (fun _ => 0) 5000 10)[0]? = some (0, 520) ∧ ¬ ((520:ℝ) ≤ 500) := by
  constructor
  · rw [generate_terrain_head]
    norm_num
  · norm_num

/-- C8 (amended): the first sample of the Deepseek.py generator is the
fixed value `(0, HEIGHT // 2) = (0, 300)` whatever the random stream.
(The first sample of the o3.py generator depends on the random jitter; see
the counterexample.) -/
theorem ds_first_sample_fixed (noise : ℕ → ℚ) :
    (ds_generate_initial_terrain noise)[0]? = some (0, 300) := by
  rw [ds_generate_initial_terrain, dsInitAux]
  simp

/-- C8 counterexample: two admissible noise streams (constantly 0 and
constantly 10) give the o3.py generator different first samples (520 vs
510), so the first sample is not a fixed value independent of the random
source. -/
theorem first_sample_randomness_counterexample :
    (generate_terrain (fun _ => 0) 5000 10)[0]?
      ≠ (generate_terrain (fun _ => (10:ℝ)) 5000 10)[0]? := by
  rw [generate_terrain_head, generate_terrain_head]
  simp only [ne_eq, Option.some.injEq, Prod.mk.injEq, not_and]
  intro _
  norm_num

/-!  ## C5, C6: bonus collection -/

lemma length_filter_add {α : Type} (p : α → Bool) :
    ∀ l : List α, (l.filter p).length + (l.filter (fun a => !(p a))).length = l.length := by
  intro l
  induction l with
  | nil => rfl
  | cons a t ih =>
    by_cases h : p a
    · simp only [List.filter_cons, h, Bool.not_true, if_pos, if_neg, List.length_cons]
      simp [h]
      omega
    · simp only [List.filter_cons]
      simp [h]
      omega

/-- The o3.py hit test only reads the bike's position, not its score. -/
lemma o3hit_score (b : BikeO3) (s : ℕ) :
    o3hit { b with score := s } = o3hit b := by
  funext bp
  simp [o3hit]

lemma o3_collect_step_idem (st : BikeO3 × List (ℚ × ℚ)) :
    o3_collect_step (o3_collect_step st) = o3_collect_step st := by
  obtain ⟨b, pts⟩ := st
  have h2 : ∀ s : ℕ, o3hit { b with score := s } = o3hit b := o3hit_score b
  simp only [o3_collect_step, o3_check_bonus, h2]
  simp [List.filter_filter]

lemma o3_collect_at_step (p : ℚ × ℚ) (st : BikeO3 × List (ℚ × ℚ)) :
    (o3_collect_at p st).1.score + (o3_collect_at p st).2.length
      = st.1.score + st.2.length := by
  obtain ⟨b, pts⟩ := st
  simp only [o3_collect_at, o3_collect_step, o3_check_bonus]
  have := length_filter_add (o3hit { b with x := p.1, y := p.2 }) pts
  omega

lemma o3_collect_fold (moves : List (ℚ × ℚ)) :
    ∀ st : BikeO3 × List (ℚ × ℚ),
      (moves.foldl (fun s p => o3_collect_at p s) st).1.score
        + (moves.foldl (fun s p => o3_collect_at p s) st).2.length
      = st.1.score + st.2.length := by
  induction moves with
  | nil => intro st; rfl
  | cons p rest ih =>
    intro st
    rw [List.foldl_cons]
    calc (rest.foldl (fun s p => o3_collect_at p s) (o3_collect_at p st)).1.score
          + (rest.foldl (fun s p => o3_collect_at p s) (o3_collect_at p st)).2.length
        = (o3_collect_at p st).1.score + (o3_collect_at p st).2.length := ih (o3_collect_at p st)
      _ = st.1.score + st.2.length := o3_collect_at_step p st

/-- The Deepseek.py hit test only reads the bike's horizontal position,
not its score. -/
lemma dsBonusHit_score (b : BikeDS) (s : ℕ) :
    dsBonusHit { b with score := s } = dsBonusHit b := by
  funext bo
  simp [dsBonusHit]

/-- After one collection pass nothing is hit again: every hit bonus is now
flagged, every other bonus still fails the test. -/
lemma ds_no_rehit (b : BikeDS) :
    ∀ bs : List Bonus,
      (bs.map (fun bo => if dsBonusHit b bo then { bo with collected := true } else bo)).countP
        (dsBonusHit b) = 0 := by
  intro bs
  induction bs with
  | nil => rfl
  | cons bo rest ih =>
    by_cases h : dsBonusHit b bo
    · simp only [List.map_cons, if_pos h, List.countP_cons, ih]
      simp [dsBonusHit]
    · simp only [List.map_cons, if_neg h, List.countP_cons, ih]

/-- Flagging the hit bonuses twice is the same as flagging them once. -/
lemma ds_map_idem (b : BikeDS) :
    ∀ bs : List Bonus,
      ((bs.map (fun bo => if dsBonusHit b bo then { bo with collected := true } else bo)).map
          (fun bo => if dsBonusHit b bo then { bo with collected := true } else bo))
        = bs.map (fun bo => if dsBonusHit b bo then { bo with collected := true } else bo) := by
  intro bs
  induction bs with
  | nil => rfl
  | cons bo rest ih =>
    by_cases h : dsBonusHit b bo
    · simp only [List.map_cons, if_pos h, ih]
      have hflag : dsBonusHit b { bo with collected := true } = false := by
        simp [dsBonusHit]
      rw [if_neg (by simp [hflag])]
    · simp only [List.map_cons, if_neg h, ih]

/-- One collection pass turns exactly the hit bonuses from uncollected to
collected. -/
lemma ds_collected_count (b : BikeDS) :
    ∀ bs : List Bonus,
      ((bs.map (fun bo => if dsBonusHit b bo then { bo with collected := true } else bo)).countP
          (fun bo => bo.collected))
        = bs.countP (fun bo => bo.collected) + bs.countP (dsBonusHit b) := by
  intro bs
  induction bs with
  | nil => rfl
  | cons bo rest ih =>
    by_cases h : dsBonusHit b bo
    · have hc : bo.collected = false := by
        have h2 := h
        simp [dsBonusHit] at h2
        exact h2.1
      simp only [List.map_cons, if_pos h, List.countP_cons, ih, hc, h]
      simp
      omega
    · simp only [List.map_cons, if_neg h, List.countP_cons, ih]
      simp [h]
      omega

lemma ds_check_idem (b : BikeDS) (bs : List Bonus) :
    ds_check_bonus_collection (ds_check_bonus_collection b bs).1
        (ds_check_bonus_collection b bs).2
      = ds_check_bonus_collection b bs := by
  have h2 : ∀ s : ℕ, dsBonusHit { b with score := s } = dsBonusHit b := dsBonusHit_score b
  simp only [ds_check_bonus_collection, h2]
  rw [ds_no_rehit, ds_map_idem]
  simp

lemma ds_collect_at_step (x : ℚ) (st : BikeDS × List Bonus) :
    (ds_collect_at x st).1.score + 10 * st.2.countP (fun bo => bo.collected)
      = st.1.score + 10 * ((ds_collect_at x st).2.countP (fun bo => bo.collected)) := by
  obtain ⟨b, bs⟩ := st
  simp only [ds_collect_at, ds_check_bonus_collection]
  rw [ds_collected_count]
  omega

lemma ds_collect_fold (moves : List ℚ) :
    ∀ st : BikeDS × List Bonus,
      (moves.foldl (fun s x => ds_collect_at x s) st).1.score
        + 10 * st.2.countP (fun bo => bo.collected)
      = st.1.score
        + 10 * ((moves.foldl (fun s x => ds_collect_at x s) st).2.countP
            (fun bo => bo.collected)) := by
  induction moves with
  | nil => intro st; rfl
  | cons x rest ih =>
    intro st
    rw [List.foldl_cons]
    have h1 := ih (ds_collect_at x st)
    have h2 := ds_collect_at_step x st
    omega

/-!  ## C5: idempotence and score accounting of bonus collection -/

/-- C5: bonus collection is idempotent per bonus, in both prototypes, and
the score counts collected bonuses exactly.
* o3.py: one frame's collect operation (`check_bonus` followed by the main
  loop's removal) applied twice at the same bike position equals applying
  it once; and over any sequence of collect operations at arbitrary bike
  positions, `score + #remaining = score₀ + #initial`, i.e. the score
  grows by the fixed award 1 for each bonus ever removed (so from
  `score₀ = 0` the score is `1 × #collected`).
* Deepseek.py: `check_bonus_collection` applied twice (on its own output)
  equals applying it once; and over any sequence of collection passes at
  arbitrary bike positions, `score - 10 × #flagged` is invariant, i.e.
  starting from `score₀ = 0` with no bonus flagged, the score is
  `10 × #collected`. -/
theorem bonus_collection_idempotent :
    (∀ st : BikeO3 × List (ℚ × ℚ),
        o3_collect_step (o3_collect_step st) = o3_collect_step st) ∧
    (∀ (moves : List (ℚ × ℚ)) (st : BikeO3 × List (ℚ × ℚ)),
        (moves.foldl (fun s p => o3_collect_at p s) st).1.score
          + (moves.foldl (fun s p => o3_collect_at p s) st).2.length
        = st.1.score + st.2.length) ∧
    (∀ (b : BikeDS) (bs : List Bonus),
        ds_check_bonus_collection (ds_check_bonus_collection b bs).1
            (ds_check_bonus_collection b bs).2
          = ds_check_bonus_collection b bs) ∧
    (∀ (moves : List ℚ) (st : BikeDS × List Bonus),
        (moves.foldl (fun s x => ds_collect_at x s) st).1.score
          + 10 * st.2.countP (fun bo => bo.collected)
        = st.1.score
          + 10 * ((moves.foldl (fun s x => ds_collect_at x s) st).2.countP
              (fun bo => bo.collected))) :=
  ⟨o3_collect_step_idem, fun moves st => o3_collect_fold moves st,
   ds_check_idem, fun moves st => ds_collect_fold moves st⟩

/-!  ## C6: the bonus hit condition -/

/-- C6 (amended): in o3.py, a bonus point is collected by `check_bonus`
exactly when BOTH `|bike_x - bonus_x| < 20` and `|bike_y - bonus_y| < 30`
hold.  In Deepseek.py, an uncollected bonus is collected by
`check_bonus_collection` exactly when `|bike_x - bonus_x| < 30` holds — the
source has no vertical condition at all (see the counterexample). -/
theorem bonus_hit_conditions :
    (∀ (b : BikeO3) (pts : List (ℚ × ℚ)) (bp : ℚ × ℚ),
        bp ∈ (o3_check_bonus b pts).2 ↔
          bp ∈ pts ∧ (|b.x - bp.1| < 20 ∧ |b.y - bp.2| < 30)) ∧
    (∀ (b : BikeDS) (x y : ℚ),
        (ds_check_bonus_collection b [⟨x, y, false⟩]).2 = [⟨x, y, true⟩] ↔
          |b.x - x| < 30) := by
  constructor
  · intro b pts bp
    simp [o3_check_bonus, List.mem_filter, o3hit]
  · intro b x y
    by_cases h : |b.x - x| < 30
    · simp [ds_check_bonus_collection, dsBonusHit, h]
    · simp [ds_check_bonus_collection, dsBonusHit, h]

/-- C6 counterexample: Deepseek.py collects a bonus that is 1000 pixels
away vertically (bike at `(100, 0)`, bonus at `(100, 1000)`), because its
hit test checks only the horizontal distance; so a vertical proximity
condition is NOT required in that prototype. -/
theorem bonus_y_tolerance_counterexample :
    (ds_check_bonus_collection ⟨100, 0, 0, 0, 0, 0⟩ [⟨100, 1000, false⟩]).2
      = [⟨100, 1000, true⟩] ∧
    ¬ (|(0:ℚ) - 1000| < 30) := by
  constructor
  · norm_num [ds_check_bonus_collection, dsBonusHit]
  · norm_num
